import Mathlib

/-!
Verification development for the modkit base-modification pileup engine.

Shallow embedding of the Rust sources under `src/`:
* `src/mod_pileup.rs` — `FeatureVector`, `add_feature`, `add_pileup_counts`,
  `decode`, `ModBasePileup::iter_counts`;
* `src/position_filter.rs` — `StrandedPositionFilter::from_bed_file` and
  `contains`;
* `src/read_ids_to_base_mod_probs.rs` — `mle_probs_per_base` and
  `mle_probs_per_base_mod`.

Machine integers (`u32`, `u64`) are modelled as `Nat` with explicit
`% 2 ^ w` reduction where the source's two's-complement wrap can fire, and
`min (x + 1) u32Max` where the source uses `saturating_add`.  `f32`/`f64`
probabilities and fractions are modelled in `ℚ`; the comparisons and
divisions appearing in the claims are exact at the rational values involved.
-/

/-- Constant `u32::MAX`. -/
def u32Max : Nat := 2 ^ 32 - 1

/-- Unsigned `u32` addition with two's-complement wrap (release-mode `+` on `u32`). -/
def u32add (a b : Nat) : Nat := (a + b) % 2 ^ 32

/-- Operation `u32::saturating_add(1)`, as used in `FeatureVector::add_feature`. -/
def satAdd1 (x : Nat) : Nat := min (x + 1) u32Max

/-- Operation `u32::saturating_add`, as used for the `n_diff` sums in `decode`. -/
def u32satadd (a b : Nat) : Nat := min (a + b) u32Max

/-- Type `util::Strand` (src/util.rs:135). -/
inductive Strand where
  | Positive
  | Negative
deriving DecidableEq, Repr

/-- Type `mod_base_code::DnaBase`, as used by `mod_pileup.rs`: one of A, C, G, T. -/
inductive DnaBase where
  | A
  | C
  | G
  | T
deriving DecidableEq, Repr

/-- Operation `DnaBase::complement` (strand complement of a base). -/
def DnaBase.complement : DnaBase → DnaBase
  | .A => .T
  | .C => .G
  | .G => .C
  | .T => .A

/-- The fixed modification-code alphabet of `mod_pileup.rs`: the `ModCode`
variants matched in `FeatureVector::add_feature` (canonical codes A, C, G, T
and the modified codes a, h, m). -/
inductive ModCode where
  | A
  | C
  | G
  | T
  | a
  | h
  | m
deriving DecidableEq, Repr

/-- Operation `ModCode::char`: the raw character of a modification code. -/
def ModCode.char : ModCode → Char
  | .A => 'A'
  | .C => 'C'
  | .G => 'G'
  | .T => 'T'
  | .a => 'a'
  | .h => 'h'
  | .m => 'm'

/-- Modelled from the spec: `DnaBase::canonical_mod_code` (mod_base_code.rs is
not under src/); §3: a `DnaBase` "maps to a `canonical` modification-code
identity used when no modification is called".  The source returns a
`Result` which `process_region` unwraps; the successful value is modelled. -/
def DnaBase.canonical_mod_code : DnaBase → ModCode
  | .A => .A
  | .C => .C
  | .G => .G
  | .T => .T

/-- Modelled from the spec: `ModCode::parse_raw_mod_code` (mod_base_code.rs is
not under src/): maps a raw mod-code character back to the `ModCode` variant;
unrecognized characters fail (`none`). -/
def ModCode.parse_raw_mod_code : Char → Option ModCode
  | 'A' => some .A
  | 'C' => some .C
  | 'G' => some .G
  | 'T' => some .T
  | 'a' => some .a
  | 'h' => some .h
  | 'm' => some .m
  | _ => none

/-- Type `mod_bam::BaseModCall`, parametric in the payload of `Modified` (the
pileup path of `mod_pileup.rs` carries a raw `char` code, the estimation path
of `read_ids_to_base_mod_probs.rs` carries a structured code).  `Filtered`
denotes a call whose winning probability fell below the threshold. -/
inductive BaseModCall (κ : Type) where
  | Canonical (p : ℚ)
  | Modified (p : ℚ) (code : κ)
  | Filtered
deriving DecidableEq, Repr

/-- Type `mod_pileup::Feature` (src/mod_pileup.rs:12). -/
inductive Feature where
  | Delete
  | Filtered
  | NoCall (base : DnaBase)
  | ModCall (code : ModCode)
deriving DecidableEq, Repr

/-- Type `mod_bam::CollapseMethod`; its payload is irrelevant to `decode`, which
only distinguishes `Collapse` from `Combine`/`Passthrough`. -/
inductive CollapseMethod where
  | ReDistribute (code : Char)
deriving DecidableEq, Repr

/-- Type `mod_pileup::PileupNumericOptions` (src/mod_pileup.rs:465). -/
inductive PileupNumericOptions where
  | Passthrough
  | Combine
  | Collapse (method : CollapseMethod)
deriving DecidableEq, Repr

/-- Type `mod_pileup::PileupFeatureCounts` (src/mod_pileup.rs:21): one decoded
output row. -/
structure PileupFeatureCounts where
  strand : Strand
  filtered_coverage : Nat
  raw_mod_code : Char
  fraction_modified : ℚ
  n_canonical : Nat
  n_modified : Nat
  n_other_modified : Nat
  n_delete : Nat
  n_filtered : Nat
  n_diff : Nat
  n_nocall : Nat
deriving DecidableEq, Repr

/-- Type `mod_pileup::FeatureVector` (src/mod_pileup.rs:35): the fixed 22-slot
counter array `counts: [u32; 22]` (11 slots per strand, layout documented in
the source comment). -/
structure FeatureVector where
  counts : Fin 22 → Nat
deriving DecidableEq

/-- Constructor `FeatureVector::new` (src/mod_pileup.rs:64). -/
def FeatureVector.new : FeatureVector := ⟨fun _ => 0⟩

/-- One arm of `add_feature`: `self.counts[i] = self.counts[i].saturating_add(1)`. -/
def bumpSlot (c : Fin 22 → Nat) (i : Fin 22) : Fin 22 → Nat :=
  Function.update c i (satAdd1 (c i))

/-- Operation `FeatureVector::add_feature` (src/mod_pileup.rs:68): increment the slot
matching the (strand, feature) pair; `ModCall(G)` and `ModCall(T)` have no
slot and fall into the source's empty catch-all arms. -/
def FeatureVector.add_feature (fv : FeatureVector) (strand : Strand)
    (feature : Feature) : FeatureVector :=
  match strand, feature with
  | .Positive, .Delete => ⟨bumpSlot fv.counts 0⟩
  | .Positive, .Filtered => ⟨bumpSlot fv.counts 1⟩
  | .Positive, .NoCall .A => ⟨bumpSlot fv.counts 2⟩
  | .Positive, .NoCall .C => ⟨bumpSlot fv.counts 3⟩
  | .Positive, .NoCall .G => ⟨bumpSlot fv.counts 4⟩
  | .Positive, .NoCall .T => ⟨bumpSlot fv.counts 5⟩
  | .Positive, .ModCall .A => ⟨bumpSlot fv.counts 6⟩
  | .Positive, .ModCall .C => ⟨bumpSlot fv.counts 7⟩
  | .Positive, .ModCall .a => ⟨bumpSlot fv.counts 8⟩
  | .Positive, .ModCall .h => ⟨bumpSlot fv.counts 9⟩
  | .Positive, .ModCall .m => ⟨bumpSlot fv.counts 10⟩
  | .Negative, .Delete => ⟨bumpSlot fv.counts 11⟩
  | .Negative, .Filtered => ⟨bumpSlot fv.counts 12⟩
  | .Negative, .NoCall .A => ⟨bumpSlot fv.counts 13⟩
  | .Negative, .NoCall .C => ⟨bumpSlot fv.counts 14⟩
  | .Negative, .NoCall .G => ⟨bumpSlot fv.counts 15⟩
  | .Negative, .NoCall .T => ⟨bumpSlot fv.counts 16⟩
  | .Negative, .ModCall .A => ⟨bumpSlot fv.counts 17⟩
  | .Negative, .ModCall .C => ⟨bumpSlot fv.counts 18⟩
  | .Negative, .ModCall .a => ⟨bumpSlot fv.counts 19⟩
  | .Negative, .ModCall .h => ⟨bumpSlot fv.counts 20⟩
  | .Negative, .ModCall .m => ⟨bumpSlot fv.counts 21⟩
  | _, .ModCall .G => fv
  | _, .ModCall .T => fv

/-- The slot table of `add_feature`: which index a (strand, feature) pair
increments, `none` for the slot-less `ModCall(G)`/`ModCall(T)` pairs. -/
def slotIndex : Strand → Feature → Option (Fin 22)
  | .Positive, .Delete => some 0
  | .Positive, .Filtered => some 1
  | .Positive, .NoCall .A => some 2
  | .Positive, .NoCall .C => some 3
  | .Positive, .NoCall .G => some 4
  | .Positive, .NoCall .T => some 5
  | .Positive, .ModCall .A => some 6
  | .Positive, .ModCall .C => some 7
  | .Positive, .ModCall .a => some 8
  | .Positive, .ModCall .h => some 9
  | .Positive, .ModCall .m => some 10
  | .Negative, .Delete => some 11
  | .Negative, .Filtered => some 12
  | .Negative, .NoCall .A => some 13
  | .Negative, .NoCall .C => some 14
  | .Negative, .NoCall .G => some 15
  | .Negative, .NoCall .T => some 16
  | .Negative, .ModCall .A => some 17
  | .Negative, .ModCall .C => some 18
  | .Negative, .ModCall .a => some 19
  | .Negative, .ModCall .h => some 20
  | .Negative, .ModCall .m => some 21
  | _, .ModCall .G => none
  | _, .ModCall .T => none

/-- Operation `FeatureVector::add_pileup_counts` (src/mod_pileup.rs:143), modelled as
returning the rows it pushes onto `counts`.  `observed_mods.contains` is
modelled as list membership on the observed mod-code set; the source's loop
over the two-element array `[(h, (n_h, n_m)), (m, (n_m, n_h))]` with a
conditional push is unrolled into two conditional singletons, in the same
order.  `mkRat n d` is the rational `n / d`, modelling the `f32` division. -/
def FeatureVector.add_pileup_counts (pileup_options : PileupNumericOptions)
    (observed_mods : List ModCode) (strand : Strand)
    (filtered_coverage n_h n_m n_canonical n_delete n_filtered n_diff n_nocall : Nat) :
    List PileupFeatureCounts :=
  let code_row : ModCode → Nat → Nat → PileupFeatureCounts :=
    fun mod_code n_modified n_other_modified =>
      { strand := strand
        filtered_coverage := filtered_coverage
        raw_mod_code := mod_code.char
        fraction_modified := mkRat n_modified filtered_coverage
        n_canonical := n_canonical
        n_modified := n_modified
        n_other_modified := n_other_modified
        n_delete := n_delete
        n_filtered := n_filtered
        n_diff := n_diff
        n_nocall := n_nocall }
  let per_code : List PileupFeatureCounts :=
    (if ModCode.h ∈ observed_mods then [code_row .h n_h n_m] else [])
      ++ (if ModCode.m ∈ observed_mods then [code_row .m n_m n_h] else [])
  match pileup_options with
  | .Passthrough => per_code
  | .Collapse _ => per_code
  | .Combine =>
    [{ strand := strand
       filtered_coverage := filtered_coverage
       raw_mod_code := ModCode.C.char
       fraction_modified := mkRat (u32add n_h n_m) filtered_coverage
       n_canonical := n_canonical
       n_modified := u32add n_h n_m
       n_other_modified := 0
       n_delete := n_delete
       n_filtered := n_filtered
       n_diff := n_diff
       n_nocall := n_nocall }]

/-- Operation `FeatureVector::decode` (src/mod_pileup.rs:203): emit the rows for the
four (strand, base-family) sections, in source order.  `u32` sums that the
source computes with plain `+` wrap mod `2 ^ 32`; the `n_diff` sums use
`saturating_add` exactly as the source does. -/
def FeatureVector.decode (fv : FeatureVector) (observed_mods : List ModCode)
    (pileup_options : PileupNumericOptions) : List PileupFeatureCounts :=
  let c := fv.counts
  let pos_strand_n_delete := c 0
  let pos_stand_n_filt := c 1
  let neg_strand_n_delete := c 11
  let neg_stand_n_filt := c 12
  let a_pos : List PileupFeatureCounts :=
    if u32add (c 6) (c 8) > 0 ∧ ModCode.a ∈ observed_mods then
      [{ strand := .Positive
         filtered_coverage := u32add (c 6) (c 8)
         raw_mod_code := ModCode.a.char
         fraction_modified := mkRat (c 8) (c 8 + c 6)
         n_canonical := c 6
         n_modified := c 8
         n_other_modified := 0
         n_delete := pos_strand_n_delete
         n_filtered := pos_stand_n_filt
         n_diff := u32satadd (u32satadd (u32satadd (u32satadd (u32satadd (c 3) (c 4)) (c 5)) (c 7)) (c 9)) (c 19)
         n_nocall := c 2 }]
    else []
  let c_pos : List PileupFeatureCounts :=
    if u32add (u32add (c 7) (c 9)) (c 10) > 0 then
      FeatureVector.add_pileup_counts pileup_options observed_mods .Positive
        (u32add (u32add (c 7) (c 9)) (c 10)) (c 9) (c 10) (c 7)
        pos_strand_n_delete pos_stand_n_filt
        (u32satadd (u32satadd (u32satadd (u32satadd (c 2) (c 4)) (c 5)) (c 6)) (c 8))
        (c 3)
    else []
  let a_neg : List PileupFeatureCounts :=
    if u32add (c 17) (c 19) > 0 ∧ ModCode.a ∈ observed_mods then
      [{ strand := .Negative
         filtered_coverage := u32add (c 17) (c 19)
         raw_mod_code := ModCode.a.char
         fraction_modified := mkRat (c 19) (c 19 + c 17)
         n_canonical := c 17
         n_modified := c 19
         n_other_modified := 0
         n_delete := neg_strand_n_delete
         n_filtered := neg_stand_n_filt
         n_diff := u32satadd (u32satadd (u32satadd (u32satadd (u32satadd (c 14) (c 15)) (c 16)) (c 18)) (c 20)) (c 21)
         n_nocall := c 13 }]
    else []
  let c_neg : List PileupFeatureCounts :=
    if u32add (u32add (c 18) (c 20)) (c 21) > 0 then
      FeatureVector.add_pileup_counts pileup_options observed_mods .Negative
        (u32add (u32add (c 18) (c 20)) (c 21)) (c 20) (c 21) (c 18)
        neg_strand_n_delete neg_stand_n_filt
        (u32satadd (u32satadd (u32satadd (u32satadd (c 13) (c 15)) (c 16)) (c 17)) (c 19))
        (c 14)
    else []
  a_pos ++ c_pos ++ a_neg ++ c_neg

/-- Type `rust_lapper::Interval<u64, ()>` (the `Iv` alias of src/position_filter.rs:9). -/
structure Iv where
  start : Nat
  stop : Nat
deriving DecidableEq, Repr

/-- Operation `rust_lapper::Lapper::find(start, stop)`: the intervals overlapping the
half-open query, i.e. those with `interval.start < stop && interval.stop > start`. -/
def lapperFind (ivs : List Iv) (start stop : Nat) : List Iv :=
  ivs.filter (fun iv => iv.start < stop && iv.stop > start)

/-- Sort used by `rust_lapper::Lapper::new`: intervals ordered by start, then stop. -/
def sortIvs (ivs : List Iv) : List Iv :=
  ivs.insertionSort (fun a b => a.start < b.start ∨ (a.start = b.start ∧ a.stop ≤ b.stop))

/-- Operation `rust_lapper::Lapper::merge_overlaps`: after sorting, fuse an interval into
the running top interval unless it starts strictly after the top stops. -/
def mergeOverlaps (ivs : List Iv) : List Iv :=
  match sortIvs ivs with
  | [] => []
  | first :: rest =>
    let step := fun (acc : List Iv × Iv) (iv : Iv) =>
      if acc.2.stop < iv.start then (acc.1 ++ [acc.2], iv)
      else if acc.2.stop < iv.stop then (acc.1, ⟨acc.2.start, iv.stop⟩)
      else acc
    let out := rest.foldl step ([], first)
    out.1 ++ [out.2]

/-- Type `position_filter::StrandedPositionFilter` (src/position_filter.rs:12): one
interval index per strand, keyed by reference-sequence id (`u32`); the
`HashMap` is modelled as an association list. -/
structure StrandedPositionFilter where
  pos_positions : List (Nat × List Iv)
  neg_positions : List (Nat × List Iv)
deriving DecidableEq, Repr

/-- The `chrom_id as u32` cast in `contains` (two's-complement reinterpretation
of the `i32` reference id). -/
def i32_as_u32 (i : Int) : Nat := (i % 2 ^ 32).toNat

/-- Unsigned `u64` increment with wrap, for the `position + 1` in `contains`. -/
def u64succ (p : Nat) : Nat := (p + 1) % 2 ^ 64

/-- Operation `StrandedPositionFilter::contains` (src/position_filter.rs:121): point
query `find(position, position + 1)` against the strand-appropriate index;
a reference id absent from that index answers `false`. -/
def StrandedPositionFilter.contains (f : StrandedPositionFilter)
    (chrom_id : Int) (position : Nat) (strand : Strand) : Bool :=
  let positions :=
    match strand with
    | .Positive => f.pos_positions
    | .Negative => f.neg_positions
  match positions.lookup (i32_as_u32 chrom_id) with
  | some lp => (lapperFind lp position (u64succ position)).length > 0
  | none => false

/-- Operation `str::split_ascii_whitespace` collected to a `Vec`, on the char list. -/
def wsSplitAux : List Char → List Char → List (List Char)
  | [], acc => if acc = [] then [] else [acc.reverse]
  | ch :: cs, acc =>
    if ch.isWhitespace then
      if acc = [] then wsSplitAux cs [] else acc.reverse :: wsSplitAux cs []
    else wsSplitAux cs (ch :: acc)

/-- Expression `line.split_ascii_whitespace().collect::<Vec<&str>>()` (src/position_filter.rs:41). -/
def wsSplit (s : String) : List String :=
  (wsSplitAux s.toList []).map List.asString

/-- Operation `str::parse::<u64>`: optional leading sign, at least one ASCII digit,
value within `u64` range. -/
def parseU64 (s : String) : Option Nat :=
  let cs :=
    match s.toList with
    | '+' :: rest => rest
    | cs => cs
  if cs = [] then none
  else if cs.all (fun ch => ch.isDigit) then
    let n := cs.foldl (fun acc ch => acc * 10 + (ch.toNat - 48)) 0
    if n < 2 ^ 64 then some n else none
  else none

/-- The strand-field match of `from_bed_file` (src/position_filter.rs:59):
which strand indexes a BED line feeds; an unrecognized field is `none`. -/
def strandFlags : String → Option (Bool × Bool)
  | "+" => some (true, false)
  | "-" => some (false, true)
  | "." => some (true, true)
  | _ => none

/-- Operation `HashMap::entry(k).or_insert(Vec::new()).push(iv)` on the association-list
model of the per-strand interval accumulator. -/
def pushIv : List (Nat × List Iv) → Nat → Iv → List (Nat × List Iv)
  | [], k, iv => [(k, [iv])]
  | (k', ivs) :: rest, k, iv =>
    if k' = k then (k', ivs ++ [iv]) :: rest else (k', ivs) :: pushIv rest k iv

/-- Mutable state of the `from_bed_file` line loop: the two per-strand
accumulators and the `warned` set of unknown chromosome names. -/
structure BedBuildState where
  pos : List (Nat × List Iv)
  neg : List (Nat × List Iv)
  warned : List String
deriving DecidableEq, Repr

/-- One iteration of the `from_bed_file` line loop (src/position_filter.rs:40–93),
in source order: index `parts[0]` (a zero-field line panics, modelled as
`none`), skip already-warned chromosomes, skip lines with fewer than 6 fields,
skip unparseable start/end, skip unrecognized strand fields, record the
interval for chromosomes present in the header and warn otherwise. -/
def bedProcessLine (chromMap : List (String × Nat)) (line : String)
    (st : BedBuildState) : Option BedBuildState :=
  match wsSplit line with
  | [] => none
  | chrom_name :: tailParts =>
    if chrom_name ∈ st.warned then some st
    else
      match tailParts with
      | p1 :: p2 :: _ :: _ :: p5 :: _ =>
        match parseU64 p1, parseU64 p2 with
        | some start, some stop =>
          (match strandFlags p5 with
           | some flags =>
             (match chromMap.lookup chrom_name with
              | some chrom_id =>
                let st1 :=
                  if flags.1 then { st with pos := pushIv st.pos chrom_id ⟨start, stop⟩ }
                  else st
                let st2 :=
                  if flags.2 then { st1 with neg := pushIv st1.neg chrom_id ⟨start, stop⟩ }
                  else st1
                some st2
              | none => some { st with warned := st.warned ++ [chrom_name] })
           | none => some st)
        | _, _ => some st
      | _ => some st

/-- The `from_bed_file` line loop over the file's lines. -/
def bedBuildLoop (chromMap : List (String × Nat)) :
    List String → BedBuildState → Option BedBuildState
  | [], st => some st
  | line :: rest, st =>
    match bedProcessLine chromMap line st with
    | none => none
    | some st' => bedBuildLoop chromMap rest st'

/-- Outcome of `StrandedPositionFilter::from_bed_file` on the file's decoded
line contents: either the constructed filter, or a panic.  (The source's only
`Err` exit is `File::open`, which is outside this content-level model; no
statement in the loop body returns an error.) -/
inductive BedBuildResult where
  | built (f : StrandedPositionFilter)
  | panicAbort
deriving DecidableEq, Repr

/-- Operation `StrandedPositionFilter::from_bed_file` (src/position_filter.rs:18) on the
file's lines: run the line loop, then freeze each accumulator into a merged
lapper index. -/
def from_bed_file (chromMap : List (String × Nat)) (lines : List String) :
    BedBuildResult :=
  match bedBuildLoop chromMap lines ⟨[], [], []⟩ with
  | none => .panicAbort
  | some st =>
    .built ⟨st.pos.map (fun e => (e.1, mergeOverlaps e.2)),
            st.neg.map (fun e => (e.1, mergeOverlaps e.2))⟩

/-- Type `mod_pileup::ModBasePileup` (src/mod_pileup.rs:446); the
`HashMap<u32, Vec<PileupFeatureCounts>>` is modelled as an association list
with (per the `HashMap` key invariant) no duplicate positions. -/
structure ModBasePileup where
  chrom_name : String
  position_feature_counts : List (Nat × List PileupFeatureCounts)

/-- Operation `ModBasePileup::iter_counts` (src/mod_pileup.rs:456): the entries sorted
by position (`sorted_by` on the key, a stable comparison sort). -/
def ModBasePileup.iter_counts (p : ModBasePileup) :
    List (Nat × List PileupFeatureCounts) :=
  p.position_feature_counts.insertionSort (fun a b => a.1 ≤ b.1)

/-- Type `mod_base_code::ModCodeRepr` as used by the estimation path: a
modification identity, either a raw character or a numeric ChEBI code
(spec §3). -/
inductive ModCodeRepr where
  | Code (c : Char)
  | ChEbi (n : Nat)
deriving DecidableEq, Repr

/-- Type `mod_bam::BaseModProbs` (spec §3): for one base of one read, a mapping
from modification code to probability (the canonical probability is implied
as `1 − Σ(modified)`), plus the `inferred` flag. -/
structure BaseModProbs where
  probs : List (ModCodeRepr × ℚ)
  inferred : Bool
deriving DecidableEq, Repr

/-- Type `mod_base_code::BaseState` (read_ids_to_base_mod_probs.rs's grouping key):
either a canonical base or a modification code. -/
inductive BaseState where
  | Canonical (b : DnaBase)
  | Modified (c : ModCodeRepr)
deriving DecidableEq, Repr

/-- Modelled from the spec: `BaseModProbs::argmax_base_mod_call` (mod_bam.rs,
not under src/).  Spec §4.1: an empty mapping yields `Canonical(1.0)`;
otherwise the entry with maximum probability — including the implicit
canonical probability `1 − Σ(modified)` — wins, ties broken by the
first-encountered code; the unthresholded operation returns `Canonical` or
`Modified` and never `Filtered`. -/
def BaseModProbs.argmax_base_mod_call (bmp : BaseModProbs) :
    BaseModCall ModCodeRepr :=
  match bmp.probs with
  | [] => .Canonical 1
  | e :: rest =>
    let best := rest.foldl (fun acc x => if x.2 > acc.2 then x else acc) e
    let canonical_prob := 1 - ((bmp.probs.map Prod.snd).sum)
    if best.2 ≥ canonical_prob then .Modified best.2 best.1
    else .Canonical canonical_prob

/-- The match on `argmax_base_mod_call` inside
`ReadIdsToBaseModProbs::mle_probs_per_base`
(src/read_ids_to_base_mod_probs.rs:78): extract the winning probability;
the `Filtered` arm is the source's `unreachable!`, modelled as `none`. -/
def mle_prob_of_call (bmp : BaseModProbs) : Option ℚ :=
  match bmp.argmax_base_mod_call with
  | .Modified f _ => some f
  | .Canonical f => some f
  | .Filtered => none

/-- The match on `argmax_base_mod_call` inside
`ReadIdsToBaseModProbs::mle_probs_per_base_mod`
(src/read_ids_to_base_mod_probs.rs:112): extract the grouping key and the
winning probability; the `Filtered` arm is the source's `unreachable!`,
modelled as `none`. -/
def mle_entry_per_base_mod (base : DnaBase) (bmp : BaseModProbs) :
    Option (BaseState × ℚ) :=
  match bmp.argmax_base_mod_call with
  | .Modified p code => some (.Modified code, p)
  | .Canonical p => some (.Canonical base, p)
  | .Filtered => none

/-- Type `ReadIdsToBaseModProbs` (src/read_ids_to_base_mod_probs.rs:36): read id
mapped to canonical base mapped to the base-mod calls on that base, with the
`HashMap`s modelled as association lists. -/
abbrev ReadIdsToBaseModProbs : Type :=
  List (String × List (DnaBase × List BaseModProbs))

/-- Operation `HashMap::entry(k).or_insert(Vec::new())` extension by a batch of values,
on the association-list model (the `Moniod::op` merge of probability maps). -/
def extendEntry {κ : Type} [DecidableEq κ] {α : Type} :
    List (κ × List α) → κ → List α → List (κ × List α)
  | [], k, vs => [(k, vs)]
  | (k', vs') :: rest, k, vs =>
    if k' = k then (k', vs' ++ vs) :: rest
    else (k', vs') :: extendEntry rest k vs

/-- Merge of two per-key vectors maps (`Moniod::op` on
`HashMap<K, Vec<V>>`), appending values key by key. -/
def moniodOp {κ : Type} [DecidableEq κ] {α : Type}
    (a b : List (κ × List α)) : List (κ × List α) :=
  b.foldl (fun acc e => extendEntry acc e.1 e.2) a

/-- Effectful map over `Option` (the `collect` of an iterator of fallible
items): `none` as soon as one element is `none`. -/
def traverseOption {α β : Type} (f : α → Option β) : List α → Option (List β)
  | [] => some []
  | x :: xs =>
    match f x, traverseOption f xs with
    | some y, some ys => some (y :: ys)
    | _, _ => none

/-- Operation `ReadIdsToBaseModProbs::mle_probs_per_base`
(src/read_ids_to_base_mod_probs.rs:66), the parallel fold modelled as a
sequential one: for every read and canonical base, extract each call's
argmax probability (`none` propagates the `unreachable!` panic), then merge
the per-read maps. -/
def mle_probs_per_base (inner : ReadIdsToBaseModProbs) :
    Option (List (DnaBase × List ℚ)) :=
  inner.foldlM
    (fun acc e =>
      (traverseOption (fun (be : DnaBase × List BaseModProbs) =>
          (traverseOption mle_prob_of_call be.2).map (fun ps => (be.1, ps))) e.2).map
        (fun perBase => moniodOp acc perBase))
    []

/-- Operation `ReadIdsToBaseModProbs::mle_probs_per_base_mod`
(src/read_ids_to_base_mod_probs.rs:96), the parallel fold modelled as a
sequential one: for every read, group each call's argmax probability by
`BaseState` (`none` propagates the `unreachable!` panic), then merge. -/
def mle_probs_per_base_mod (inner : ReadIdsToBaseModProbs) :
    Option (List (BaseState × List ℚ)) :=
  inner.foldlM
    (fun acc e =>
      (traverseOption (fun (be : DnaBase × List BaseModProbs) =>
          be.2.foldlM
            (fun grouped bmp =>
              (mle_entry_per_base_mod be.1 bmp).map
                (fun kp => extendEntry grouped kp.1 [kp.2]))
            []) e.2).map
        (fun groups => moniodOp acc (groups.foldl moniodOp [])))
    []



/-- Modelled from the spec: the thresholded call served by
`ReadCache::get_mod_call` via `MultipleThresholdModCaller` (read_cache.rs and
mod_bam.rs are not under src/).  Spec §4.1/§4.2: the winning call's own
probability is compared against the applicable threshold and the call becomes
`Filtered` when it is below it. -/
def apply_threshold (threshold : ℚ) : BaseModCall Char → BaseModCall Char
  | .Canonical p => if p < threshold then .Filtered else .Canonical p
  | .Modified p code => if p < threshold then .Filtered else .Modified p code
  | .Filtered => .Filtered

/-- The per-alignment feature computation of `process_region`
(src/mod_pileup.rs:558–575): a present call maps `Canonical` to the read
base's canonical mod code, `Filtered` to `Feature::Filtered` and `Modified`
through `parse_raw_mod_code`; an absent call is a no-call on the read base.
The source's `unwrap()`s are modelled in `Option`. -/
def feature_of_mod_call (read_base : DnaBase)
    (mod_call : Option (BaseModCall Char)) : Option Feature :=
  match mod_call with
  | some (.Canonical _) => some (.ModCall read_base.canonical_mod_code)
  | some .Filtered => some .Filtered
  | some (.Modified _ raw_code) =>
    (ModCode.parse_raw_mod_code raw_code).map Feature.ModCall
  | none => some (.NoCall read_base)

/-- The two contributing calls of the C1 scenario: one `Canonical(0.95)` and
one `Modified(0.8, m)`. -/
def c1_calls : List (BaseModCall Char) :=
  [.Canonical (mkRat 19 20), .Modified (mkRat 4 5) 'm']

/-- The C1 scenario's feature vector: both calls are thresholded at 0.85,
mapped to features at a C read base on the positive strand, and accumulated
with `add_feature`. -/
def c1_feature_vector : Option FeatureVector :=
  c1_calls.foldlM
    (fun fv call =>
      (feature_of_mod_call .C (some (apply_threshold (mkRat 17 20) call))).map
        (fv.add_feature .Positive))
    FeatureVector.new

/-- The C1 scenario's decoded rows, with the mod code `m` observed. -/
def c1_rows : Option (List PileupFeatureCounts) :=
  c1_feature_vector.map (fun fv => fv.decode [ModCode.m] .Passthrough)

/-- The single row the C1 scenario actually decodes to. -/
def c1_row : PileupFeatureCounts :=
  { strand := .Positive
    filtered_coverage := 1
    raw_mod_code := 'm'
    fraction_modified := 0
    n_canonical := 1
    n_modified := 0
    n_other_modified := 0
    n_delete := 0
    n_filtered := 1
    n_diff := 0
    n_nocall := 0 }

/-- C1 (counterexample): in the two-call scenario — `Canonical(0.95)` and
`Modified(0.8, m)` decoded with threshold 0.85 — the emitted `m` row has
`n_canonical = 1`, `n_modified = 0`, `n_filtered = 1` as claimed, but its
`filtered_coverage` is 1: the filtered call is *not* counted toward
`filtered_coverage` (which would then be `n_canonical + n_filtered = 2`),
refuting the claim that it is. -/
theorem c1_filtered_call_not_in_filtered_coverage :
    c1_rows = some [c1_row]
    ∧ c1_row.n_canonical = 1 ∧ c1_row.n_modified = 0 ∧ c1_row.n_filtered = 1
    ∧ c1_row.filtered_coverage ≠ c1_row.n_canonical + c1_row.n_filtered := by
  decide

/-- C1 (amended): in the same scenario the decoded `m` row has
`n_canonical = 1`, `n_modified = 0`, `n_filtered = 1`; the 0.8 call is
recorded as a filtered event in `n_filtered` — not dropped and not counted
as modified — but it does not count toward `filtered_coverage`, which equals
`n_canonical` = 1. -/
theorem c1_scenario_decode :
    c1_rows = some [c1_row]
    ∧ c1_row.n_canonical = 1 ∧ c1_row.n_modified = 0 ∧ c1_row.n_filtered = 1
    ∧ c1_row.filtered_coverage = c1_row.n_canonical := by
  decide

/-- A saturated slot stays at the representation maximum when bumped. -/
lemma bumpSlot_at_max (c : Fin 22 → Nat) (i : Fin 22) (h : c i = u32Max) :
    bumpSlot c i = c := by
  unfold bumpSlot satAdd1
  rw [h]
  have hmin : min (u32Max + 1) u32Max = u32Max := min_eq_right (Nat.le_succ _)
  rw [hmin, ← h, Function.update_eq_self]

/-- C7: for every starting counter state and every (strand, feature) pair
with a slot in the fixed table, `add_feature` rewrites exactly that one slot
to its `saturating_add(1)` (all other slots unchanged, by `Function.update`),
and a slot already at `u32::MAX` saturates: the vector is left unchanged
rather than wrapping. -/
theorem c7_add_feature_increments_slot (fv : FeatureVector) (strand : Strand)
    (feature : Feature) (i : Fin 22) (h : slotIndex strand feature = some i) :
    fv.add_feature strand feature
        = ⟨Function.update fv.counts i (satAdd1 (fv.counts i))⟩
    ∧ (fv.counts i = u32Max → fv.add_feature strand feature = fv) := by
  cases strand <;> cases feature <;> try (rename_i v; cases v)
  all_goals simp only [slotIndex] at h
  all_goals
    first
    | exact Option.noConfusion h
    | (injection h with h; subst h;
       exact ⟨rfl, fun hmax => congrArg FeatureVector.mk (bumpSlot_at_max _ _ hmax)⟩)

/-- The all-saturated counter state, for the C7 witness. -/
def c7_saturated : FeatureVector := ⟨fun _ => u32Max⟩

/-- C7 witness: `add_feature` at the (Positive, Filtered) slot on the
all-saturated state, with the slot-table hypothesis discharged at slot 1 and
the saturation hypothesis discharged by `rfl`. -/
theorem c7_add_feature_increments_slot_witness :
    c7_saturated.add_feature .Positive .Filtered
        = ⟨Function.update c7_saturated.counts 1 (satAdd1 (c7_saturated.counts 1))⟩
    ∧ c7_saturated.add_feature .Positive .Filtered = c7_saturated :=
  ⟨(c7_add_feature_increments_slot c7_saturated .Positive .Filtered 1 rfl).1,
   (c7_add_feature_increments_slot c7_saturated .Positive .Filtered 1 rfl).2 rfl⟩

/-- C9: a modified-base call whose code has no reserved counter slot
(`ModCall(G)` and `ModCall(T)`) is silently dropped by `add_feature`: on
either strand and from any counter state the vector is unchanged, so such
calls contribute to no decoded row. -/
theorem c9_add_feature_unknown_code_noop (fv : FeatureVector) (strand : Strand)
    (observed_mods : List ModCode) (pileup_options : PileupNumericOptions) :
    fv.add_feature strand (.ModCall .G) = fv
    ∧ fv.add_feature strand (.ModCall .T) = fv
    ∧ (fv.add_feature strand (.ModCall .G)).decode observed_mods pileup_options
        = fv.decode observed_mods pileup_options
    ∧ (fv.add_feature strand (.ModCall .T)).decode observed_mods pileup_options
        = fv.decode observed_mods pileup_options := by
  cases strand <;> exact ⟨rfl, rfl, rfl, rfl⟩

/-- The per-strand index that `contains` selects (the `match strand` at
src/position_filter.rs:127). -/
def strandIndexOf (f : StrandedPositionFilter) : Strand → List (Nat × List Iv)
  | .Positive => f.pos_positions
  | .Negative => f.neg_positions

/-- C8: `contains` consults only the interval index of the queried strand —
two filters agreeing on that strand's index answer identically, whatever the
other strand's index holds — and a reference id with no entry in that
strand's index answers `false`. -/
theorem c8_contains_queries_strand_index (f g : StrandedPositionFilter)
    (chrom_id : Int) (position : Nat) (strand : Strand)
    (hsel : strandIndexOf f strand = strandIndexOf g strand) :
    f.contains chrom_id position strand = g.contains chrom_id position strand
    ∧ ((strandIndexOf f strand).lookup (i32_as_u32 chrom_id) = none →
        f.contains chrom_id position strand = false) := by
  cases strand <;>
    (simp only [strandIndexOf] at hsel
     constructor
     · simp only [StrandedPositionFilter.contains]
       rw [hsel]
     · intro hnone
       simp only [strandIndexOf] at hnone
       simp only [StrandedPositionFilter.contains]
       rw [hnone])

/-- A filter whose negative index is empty but whose positive index is not,
for the C8 witness. -/
def c8_left_filter : StrandedPositionFilter := ⟨[(7, [⟨0, 5⟩])], []⟩

/-- The empty filter, for the C8 witness. -/
def c8_right_filter : StrandedPositionFilter := ⟨[], []⟩

/-- C8 witness: a negative-strand query at reference id 7 ignores the
differing positive index of the two filters and answers `false` because id 7
is absent from the (empty) negative index. -/
theorem c8_contains_queries_strand_index_witness :
    c8_left_filter.contains 7 2 .Negative = c8_right_filter.contains 7 2 .Negative
    ∧ c8_left_filter.contains 7 2 .Negative = false :=
  ⟨(c8_contains_queries_strand_index c8_left_filter c8_right_filter 7 2 .Negative rfl).1,
   (c8_contains_queries_strand_index c8_left_filter c8_right_filter 7 2 .Negative rfl).2 rfl⟩

/-- A line with at least one whitespace-separated field is processed without
panicking (every branch after the `parts[0]` access skips or records). -/
lemma bedProcessLine_isSome (chromMap : List (String × Nat)) (line : String)
    (st : BedBuildState) (h : wsSplit line ≠ []) :
    (bedProcessLine chromMap line st).isSome := by
  unfold bedProcessLine
  rcases hw : wsSplit line with _ | ⟨chrom, tail⟩
  · exact absurd hw h
  · repeat' split
    all_goals simp_all

/-- A line with no whitespace-separated field makes the loop body panic
(`parts[0]` is out of bounds). -/
lemma bedProcessLine_none (chromMap : List (String × Nat)) (line : String)
    (st : BedBuildState) (h : wsSplit line = []) :
    bedProcessLine chromMap line st = none := by
  unfold bedProcessLine
  rw [h]

/-- The line loop completes when every line has at least one field. -/
lemma bedBuildLoop_isSome (chromMap : List (String × Nat)) :
    ∀ (lines : List String) (st : BedBuildState),
      (∀ l ∈ lines, wsSplit l ≠ []) → (bedBuildLoop chromMap lines st).isSome := by
  intro lines
  induction lines with
  | nil => intro st _; simp [bedBuildLoop]
  | cons line rest ih =>
    intro st h
    have h1 : (bedProcessLine chromMap line st).isSome :=
      bedProcessLine_isSome chromMap line st (h line (List.mem_cons_self line rest))
    obtain ⟨st', hst⟩ := Option.isSome_iff_exists.mp h1
    simp only [bedBuildLoop, hst]
    exact ih st' (fun l hl => h l (List.mem_cons_of_mem line hl))

/-- The line loop panics as soon as some line has no field. -/
lemma bedBuildLoop_none (chromMap : List (String × Nat)) :
    ∀ (lines : List String) (st : BedBuildState),
      (∃ l ∈ lines, wsSplit l = []) → bedBuildLoop chromMap lines st = none := by
  intro lines
  induction lines with
  | nil => intro st h; simp at h
  | cons line rest ih =>
    intro st h
    by_cases hline : wsSplit line = []
    · simp only [bedBuildLoop, bedProcessLine_none chromMap line st hline]
    · have h1 : (bedProcessLine chromMap line st).isSome :=
        bedProcessLine_isSome chromMap line st hline
      obtain ⟨st', hst⟩ := Option.isSome_iff_exists.mp h1
      simp only [bedBuildLoop, hst]
      obtain ⟨l, hl, hsplit⟩ := h
      rcases List.mem_cons.mp hl with rfl | hmem
      · exact absurd hsplit hline
      · exact ih st' ⟨l, hmem, hsplit⟩

/-- C5 (counterexample): a coordinate file whose lines are improperly
formatted — too few fields, unparseable start/end, an unrecognized strand
field — does *not* abort construction: `from_bed_file` completes and returns
the same (empty) filter it returns for an empty file; the malformed lines
are skipped, not fatal. -/
theorem c5_malformed_lines_skipped_not_fatal :
    from_bed_file [("chr1", 0)] ["chr1 5", "chr1 x y n 0 +", "chr1 1 5 n 0 ?"]
        = .built ⟨[], []⟩
    ∧ from_bed_file [("chr1", 0)] [] = .built ⟨[], []⟩ := by
  decide

/-- C5 (amended): improperly formatted BED lines (too few fields,
unparseable start/end, unrecognized strand) are logged and skipped;
`from_bed_file` completes and returns a built filter for any input whose
lines each have at least one whitespace-separated field (a zero-field line
instead panics; the only `Err` exit of the source is failing to open the
file). -/
theorem c5_from_bed_file_completes (chromMap : List (String × Nat))
    (lines : List String) (h : ∀ l ∈ lines, wsSplit l ≠ []) :
    ∃ f, from_bed_file chromMap lines = .built f := by
  unfold from_bed_file
  obtain ⟨st, hst⟩ :=
    Option.isSome_iff_exists.mp (bedBuildLoop_isSome chromMap lines ⟨[], [], []⟩ h)
  rw [hst]
  exact ⟨_, rfl⟩

/-- C5 witness: a well-formed single-line file builds a filter. -/
theorem c5_from_bed_file_completes_witness :
    ∃ f, from_bed_file [("chr1", 0)] ["chr1 1 5 n 0 +"] = .built f :=
  c5_from_bed_file_completes [("chr1", 0)] ["chr1 1 5 n 0 +"] (by decide)

/-- C10: `from_bed_file` indexes `parts[0]` before checking the field count,
so any input containing a line with zero whitespace-separated fields (empty
or all-whitespace) panics — the line is neither skipped nor surfaced as an
`Err`. -/
theorem c10_zero_field_line_panics (chromMap : List (String × Nat))
    (lines : List String) (h : ∃ l ∈ lines, wsSplit l = []) :
    from_bed_file chromMap lines = .panicAbort := by
  unfold from_bed_file
  rw [bedBuildLoop_none chromMap lines ⟨[], [], []⟩ h]

/-- C10 witness: a file with one well-formed line followed by an
all-whitespace line panics. -/
theorem c10_zero_field_line_panics_witness :
    from_bed_file [("chr1", 0)] ["chr1 1 5 n 0 +", " "] = .panicAbort :=
  c10_zero_field_line_panics [("chr1", 0)] ["chr1 1 5 n 0 +", " "]
    ⟨" ", by decide, by decide⟩

instance : IsTotal (Nat × List PileupFeatureCounts) (fun a b => a.1 ≤ b.1) :=
  ⟨fun a b => Nat.le_total a.1 b.1⟩

instance : IsTrans (Nat × List PileupFeatureCounts) (fun a b => a.1 ≤ b.1) :=
  ⟨fun _ _ _ h1 h2 => Nat.le_trans h1 h2⟩

/-- C6: with the position keys distinct (the `HashMap` key invariant),
`iter_counts` yields the per-position results in strictly ascending position
order — the aggregate handed to the output writer is sorted by position. -/
theorem c6_iter_counts_strictly_ascending (p : ModBasePileup)
    (h : (p.position_feature_counts.map Prod.fst).Nodup) :
    p.iter_counts.Pairwise (fun a b => a.1 < b.1) := by
  have hsorted : p.iter_counts.Pairwise (fun a b => a.1 ≤ b.1) :=
    List.sorted_insertionSort _ _
  have hperm : p.iter_counts.Perm p.position_feature_counts :=
    List.perm_insertionSort _ _
  have hnodup : (p.iter_counts.map Prod.fst).Nodup :=
    ((hperm.map Prod.fst).nodup_iff).mpr h
  have hne : p.iter_counts.Pairwise (fun a b => a.1 ≠ b.1) :=
    List.pairwise_map.mp hnodup
  exact hsorted.imp₂ (fun _ _ hle hne => lt_of_le_of_ne hle hne) hne

/-- A pileup whose hash-map entries are out of position order, for the C6
witness. -/
def c6_pileup : ModBasePileup := ⟨"chr1", [(5, []), (2, []), (9, [])]⟩

/-- C6 witness: iterating the concrete pileup yields strictly ascending
positions. -/
theorem c6_iter_counts_strictly_ascending_witness :
    c6_pileup.iter_counts.Pairwise (fun a b => a.1 < b.1) :=
  c6_iter_counts_strictly_ascending c6_pileup (by decide)

/-- The unthresholded argmax never yields `Filtered` (spec §4.1): on an
empty mapping it is `Canonical 1`, otherwise either the best explicit entry
(`Modified`) or the implied canonical probability (`Canonical`). -/
lemma argmax_base_mod_call_ne_filtered (bmp : BaseModProbs) :
    bmp.argmax_base_mod_call ≠ .Filtered := by
  unfold BaseModProbs.argmax_base_mod_call
  split
  · simp
  · dsimp only
    split <;> simp

/-- The winning-probability extraction of `mle_probs_per_base` never reaches
its `unreachable!` arm. -/
lemma mle_prob_of_call_isSome (bmp : BaseModProbs) :
    (mle_prob_of_call bmp).isSome := by
  unfold mle_prob_of_call
  rcases h : bmp.argmax_base_mod_call with p | ⟨p, c⟩ | _
  · simp
  · simp
  · exact absurd h (argmax_base_mod_call_ne_filtered bmp)

/-- The grouping-entry extraction of `mle_probs_per_base_mod` never reaches
its `unreachable!` arm. -/
lemma mle_entry_per_base_mod_isSome (base : DnaBase) (bmp : BaseModProbs) :
    (mle_entry_per_base_mod base bmp).isSome := by
  unfold mle_entry_per_base_mod
  rcases h : bmp.argmax_base_mod_call with p | ⟨p, c⟩ | _
  · simp
  · simp
  · exact absurd h (argmax_base_mod_call_ne_filtered bmp)

/-- Mapping with `Option.map` preserves success. -/
lemma isSome_option_map {α β : Type} (f : α → β) (o : Option α) :
    (o.map f).isSome = o.isSome := by
  cases o <;> rfl

/-- Traversal `traverseOption` succeeds when every element does. -/
lemma traverseOption_isSome {α β : Type} (f : α → Option β) :
    ∀ (l : List α), (∀ x ∈ l, (f x).isSome) → (traverseOption f l).isSome := by
  intro l
  induction l with
  | nil => intro _; simp [traverseOption]
  | cons x xs ih =>
    intro h
    obtain ⟨y, hy⟩ :=
      Option.isSome_iff_exists.mp (h x (List.mem_cons_self x xs))
    obtain ⟨ys, hys⟩ :=
      Option.isSome_iff_exists.mp (ih (fun z hz => h z (List.mem_cons_of_mem x hz)))
    simp [traverseOption, hy, hys]

/-- `foldlM` over `Option` succeeds when every step does. -/
lemma foldlM_option_isSome {α β : Type} (f : β → α → Option β) :
    ∀ (l : List α), (∀ b x, x ∈ l → (f b x).isSome) →
      ∀ b, (l.foldlM f b).isSome := by
  intro l
  induction l with
  | nil => intro _ b; simp
  | cons x xs ih =>
    intro h b
    obtain ⟨b', hb⟩ :=
      Option.isSome_iff_exists.mp (h b x (List.mem_cons_self x xs))
    simp only [List.foldlM_cons, hb, Option.bind_some]
    exact ih (fun b z hz => h b z (List.mem_cons_of_mem x hz)) b'

/-- C4: the unthresholded argmax call used for threshold estimation never
produces `Filtered`: on every `ReadIdsToBaseModProbs`, both
`mle_probs_per_base` and `mle_probs_per_base_mod` complete without hitting
their `unreachable!` branches (modelled as `none`). -/
theorem c4_mle_probs_never_hit_unreachable (inner : ReadIdsToBaseModProbs) :
    (mle_probs_per_base inner).isSome ∧ (mle_probs_per_base_mod inner).isSome := by
  constructor
  · apply foldlM_option_isSome _ inner _ []
    intro acc e _
    rw [isSome_option_map]
    apply traverseOption_isSome
    intro be _
    rw [isSome_option_map]
    apply traverseOption_isSome
    intro bmp _
    exact mle_prob_of_call_isSome bmp
  · apply foldlM_option_isSome _ inner _ []
    intro acc e _
    rw [isSome_option_map]
    apply traverseOption_isSome
    intro be _
    apply foldlM_option_isSome
    intro grouped bmp _
    rw [isSome_option_map]
    exact mle_entry_per_base_mod_isSome be.1 bmp

/-- Membership in a conditional singleton segment. -/
lemma mem_ite_nil {α : Type} {c : Prop} [Decidable c] {l : List α} {x : α}
    (h : x ∈ if c then l else []) : c ∧ x ∈ l := by
  by_cases hc : c
  · rw [if_pos hc] at h; exact ⟨hc, h⟩
  · rw [if_neg hc] at h; cases h

/-- Value `mkRat n d` on naturals is the rational `n / d`. -/
lemma mkRat_natCast_div (n d : Nat) : (mkRat (n : Int) d : ℚ) = (n : ℚ) / (d : ℚ) := by
  rw [Rat.mkRat_eq_divInt, Rat.divInt_eq_div]
  push_cast
  rfl

/-- Characterization of the rows produced by `add_pileup_counts`: every row
carries the passed strand, `filtered_coverage` and `n_canonical`; its code is
one of h, m, C; its modified/other-modified counts are (n_h, n_m), (n_m, n_h)
or (n_h + n_m wrapped, 0); and its fraction is `n_modified / filtered_coverage`. -/
lemma mem_add_pileup_counts
    (pileup_options : PileupNumericOptions) (observed_mods : List ModCode)
    (strand : Strand) (fc n_h n_m n_canonical n_delete n_filtered n_diff n_nocall : Nat)
    (row : PileupFeatureCounts)
    (h : row ∈ FeatureVector.add_pileup_counts pileup_options observed_mods strand
          fc n_h n_m n_canonical n_delete n_filtered n_diff n_nocall) :
    row.strand = strand ∧ row.filtered_coverage = fc ∧ row.n_canonical = n_canonical
    ∧ row.raw_mod_code ∈ (['h', 'm', 'C'] : List Char)
    ∧ ((row.n_modified = n_h ∧ row.n_other_modified = n_m)
        ∨ (row.n_modified = n_m ∧ row.n_other_modified = n_h)
        ∨ (row.n_modified = u32add n_h n_m ∧ row.n_other_modified = 0))
    ∧ row.fraction_modified = mkRat row.n_modified fc := by
  rcases pileup_options with _ | _ | meth <;>
    simp only [FeatureVector.add_pileup_counts] at h
  case Passthrough | Collapse =>
    rcases List.mem_append.mp h with h | h <;>
      obtain ⟨hobs, hmem⟩ := mem_ite_nil h <;>
      rw [List.mem_singleton] at hmem <;> subst hmem
    · exact ⟨rfl, rfl, rfl, by simp [ModCode.char], Or.inl ⟨rfl, rfl⟩, rfl⟩
    · exact ⟨rfl, rfl, rfl, by simp [ModCode.char], Or.inr (Or.inl ⟨rfl, rfl⟩), rfl⟩
  case Combine =>
    rw [List.mem_singleton] at h
    subst h
    exact ⟨rfl, rfl, rfl, by simp [ModCode.char], Or.inr (Or.inr ⟨rfl, rfl⟩), rfl⟩

/-- Case analysis for `decode`: every emitted row comes from one of the four
(strand, base-family) sections, each guarded by the positivity of that
family's (wrapped) counter sum. -/
lemma mem_decode_cases (fv : FeatureVector) (observed_mods : List ModCode)
    (pileup_options : PileupNumericOptions) (row : PileupFeatureCounts)
    (h : row ∈ fv.decode observed_mods pileup_options) :
    (0 < u32add (fv.counts 6) (fv.counts 8) ∧ ModCode.a ∈ observed_mods
      ∧ row.strand = .Positive ∧ row.raw_mod_code = 'a'
      ∧ row.filtered_coverage = u32add (fv.counts 6) (fv.counts 8)
      ∧ row.n_canonical = fv.counts 6 ∧ row.n_modified = fv.counts 8
      ∧ row.n_other_modified = 0
      ∧ row.fraction_modified = mkRat (fv.counts 8) (fv.counts 8 + fv.counts 6))
    ∨ (0 < u32add (u32add (fv.counts 7) (fv.counts 9)) (fv.counts 10)
      ∧ row ∈ FeatureVector.add_pileup_counts pileup_options observed_mods .Positive
          (u32add (u32add (fv.counts 7) (fv.counts 9)) (fv.counts 10))
          (fv.counts 9) (fv.counts 10) (fv.counts 7) (fv.counts 0) (fv.counts 1)
          (u32satadd (u32satadd (u32satadd (u32satadd (fv.counts 2) (fv.counts 4)) (fv.counts 5)) (fv.counts 6)) (fv.counts 8))
          (fv.counts 3))
    ∨ (0 < u32add (fv.counts 17) (fv.counts 19) ∧ ModCode.a ∈ observed_mods
      ∧ row.strand = .Negative ∧ row.raw_mod_code = 'a'
      ∧ row.filtered_coverage = u32add (fv.counts 17) (fv.counts 19)
      ∧ row.n_canonical = fv.counts 17 ∧ row.n_modified = fv.counts 19
      ∧ row.n_other_modified = 0
      ∧ row.fraction_modified = mkRat (fv.counts 19) (fv.counts 19 + fv.counts 17))
    ∨ (0 < u32add (u32add (fv.counts 18) (fv.counts 20)) (fv.counts 21)
      ∧ row ∈ FeatureVector.add_pileup_counts pileup_options observed_mods .Negative
          (u32add (u32add (fv.counts 18) (fv.counts 20)) (fv.counts 21))
          (fv.counts 20) (fv.counts 21) (fv.counts 18) (fv.counts 11) (fv.counts 12)
          (u32satadd (u32satadd (u32satadd (u32satadd (fv.counts 13) (fv.counts 15)) (fv.counts 16)) (fv.counts 17)) (fv.counts 19))
          (fv.counts 14)) := by
  simp only [FeatureVector.decode] at h
  rcases List.mem_append.mp h with h | h
  · rcases List.mem_append.mp h with h | h
    · rcases List.mem_append.mp h with h | h
      · obtain ⟨⟨hg, hobs⟩, hmem⟩ := mem_ite_nil h
        rw [List.mem_singleton] at hmem
        subst hmem
        exact Or.inl ⟨hg, hobs, rfl, rfl, rfl, rfl, rfl, rfl, rfl⟩
      · obtain ⟨hg, hmem⟩ := mem_ite_nil h
        exact Or.inr (Or.inl ⟨hg, hmem⟩)
    · obtain ⟨⟨hg, hobs⟩, hmem⟩ := mem_ite_nil h
      rw [List.mem_singleton] at hmem
      subst hmem
      exact Or.inr (Or.inr (Or.inl ⟨hg, hobs, rfl, rfl, rfl, rfl, rfl, rfl, rfl⟩))
  · obtain ⟨hg, hmem⟩ := mem_ite_nil h
    exact Or.inr (Or.inr (Or.inr ⟨hg, hmem⟩))

/-- A positive wrapped pair sum means the exact pair sum is nonzero. -/
lemma u32add_pos_ne_zero (a b : Nat) (h : 0 < u32add a b) : a + b ≠ 0 := by
  intro hz
  rw [u32add, hz] at h
  simp at h

/-- A positive wrapped triple sum means the exact triple sum is nonzero. -/
lemma u32add3_pos_ne_zero (a b c : Nat) (h : 0 < u32add (u32add a b) c) :
    a + b + c ≠ 0 := by
  intro hz
  obtain ⟨ha, hb, hc⟩ : a = 0 ∧ b = 0 ∧ c = 0 := by omega
  subst ha; subst hb; subst hc
  simp [u32add] at h

/-- C3: `decode` emits no row for a (strand, base-family) combination whose
family counters are all zero: every emitted row's family — identified by its
strand and raw mod code ('a' for the adenine family; 'h', 'm' or the combined
'C' for the cytosine family) — has a nonzero counter sum at that strand, and
every emitted row's code is one of these family codes. -/
theorem c3_no_row_for_unobserved_family (fv : FeatureVector)
    (observed_mods : List ModCode) (pileup_options : PileupNumericOptions)
    (row : PileupFeatureCounts) (h : row ∈ fv.decode observed_mods pileup_options) :
    (row.strand = .Positive → row.raw_mod_code = 'a' →
       fv.counts 6 + fv.counts 8 ≠ 0)
    ∧ (row.strand = .Positive → row.raw_mod_code ∈ (['h', 'm', 'C'] : List Char) →
       fv.counts 7 + fv.counts 9 + fv.counts 10 ≠ 0)
    ∧ (row.strand = .Negative → row.raw_mod_code = 'a' →
       fv.counts 17 + fv.counts 19 ≠ 0)
    ∧ (row.strand = .Negative → row.raw_mod_code ∈ (['h', 'm', 'C'] : List Char) →
       fv.counts 18 + fv.counts 20 + fv.counts 21 ≠ 0)
    ∧ row.raw_mod_code ∈ (['a', 'h', 'm', 'C'] : List Char) := by
  rcases mem_decode_cases fv observed_mods pileup_options row h with
    ⟨hg, _, hs, hc, _⟩ | ⟨hg, hmem⟩ | ⟨hg, _, hs, hc, _⟩ | ⟨hg, hmem⟩
  · exact ⟨fun _ _ => u32add_pos_ne_zero _ _ hg,
           fun _ hc2 => absurd (hc ▸ hc2) (by decide),
           fun hs2 _ => absurd (hs ▸ hs2) (by decide),
           fun hs2 _ => absurd (hs ▸ hs2) (by decide),
           by rw [hc]; decide⟩
  · obtain ⟨hs, _, _, hcode, _, _⟩ :=
      mem_add_pileup_counts _ _ _ _ _ _ _ _ _ _ _ _ hmem
    exact ⟨fun _ hc2 => absurd (hc2 ▸ hcode) (by decide),
           fun _ _ => u32add3_pos_ne_zero _ _ _ hg,
           fun hs2 _ => absurd (hs ▸ hs2) (by decide),
           fun hs2 _ => absurd (hs ▸ hs2) (by decide),
           List.mem_cons_of_mem 'a' hcode⟩
  · exact ⟨fun hs2 _ => absurd (hs ▸ hs2) (by decide),
           fun hs2 _ => absurd (hs ▸ hs2) (by decide),
           fun _ _ => u32add_pos_ne_zero _ _ hg,
           fun _ hc2 => absurd (hc ▸ hc2) (by decide),
           by rw [hc]; decide⟩
  · obtain ⟨hs, _, _, hcode, _, _⟩ :=
      mem_add_pileup_counts _ _ _ _ _ _ _ _ _ _ _ _ hmem
    exact ⟨fun hs2 _ => absurd (hs ▸ hs2) (by decide),
           fun hs2 _ => absurd (hs ▸ hs2) (by decide),
           fun _ hc2 => absurd (hc2 ▸ hcode) (by decide),
           fun _ _ => u32add3_pos_ne_zero _ _ _ hg,
           List.mem_cons_of_mem 'a' hcode⟩

/-- A counter state with one positive-strand canonical A call and one `a`
mod call, for the C3 witness. -/
def c3_fv : FeatureVector :=
  ⟨fun i => if i = (6 : Fin 22) then 1 else if i = (8 : Fin 22) then 1 else 0⟩

/-- The 'a' row that `c3_fv` decodes to. -/
def c3_row : PileupFeatureCounts :=
  { strand := .Positive
    filtered_coverage := 2
    raw_mod_code := 'a'
    fraction_modified := mkRat 1 2
    n_canonical := 1
    n_modified := 1
    n_other_modified := 0
    n_delete := 0
    n_filtered := 0
    n_diff := 0
    n_nocall := 0 }

/-- C3 witness: the 'a' row emitted for `c3_fv` has a nonzero positive-strand
adenine family sum. -/
theorem c3_no_row_for_unobserved_family_witness :
    c3_fv.counts 6 + c3_fv.counts 8 ≠ 0 :=
  (c3_no_row_for_unobserved_family c3_fv [ModCode.a] .Passthrough c3_row
      (by decide)).1 rfl rfl

/-- A positive wrapped sum below the wrap bound is the exact sum. -/
lemma u32add_eq_of_lt (a b : Nat) (h : a + b < 2 ^ 32) : u32add a b = a + b :=
  Nat.mod_eq_of_lt h

/-- C2 (amended, theorem): when each base family's counter total fits in
`u32` (no wrap), every row emitted by `decode` satisfies
`filtered_coverage = n_canonical + n_modified + n_other_modified` (the family
sum: `n_canonical + n_h + n_m` for the cytosine family, `n_canonical + n_a`
for the adenine family), `fraction_modified = n_modified / filtered_coverage`,
and `filtered_coverage ≠ 0`. -/
theorem c2_decode_row_invariants (fv : FeatureVector)
    (observed_mods : List ModCode) (pileup_options : PileupNumericOptions)
    (hA : fv.counts 6 + fv.counts 8 < 2 ^ 32)
    (hC : fv.counts 7 + fv.counts 9 + fv.counts 10 < 2 ^ 32)
    (hA2 : fv.counts 17 + fv.counts 19 < 2 ^ 32)
    (hC2 : fv.counts 18 + fv.counts 20 + fv.counts 21 < 2 ^ 32)
    (row : PileupFeatureCounts) (h : row ∈ fv.decode observed_mods pileup_options) :
    row.filtered_coverage = row.n_canonical + row.n_modified + row.n_other_modified
    ∧ row.fraction_modified = (row.n_modified : ℚ) / (row.filtered_coverage : ℚ)
    ∧ row.filtered_coverage ≠ 0 := by
  rcases mem_decode_cases fv observed_mods pileup_options row h with
    ⟨hg, _, _, _, hfc, hcan, hmod, hoth, hfrac⟩ | ⟨hg, hmem⟩ |
    ⟨hg, _, _, _, hfc, hcan, hmod, hoth, hfrac⟩ | ⟨hg, hmem⟩
  · have hw : u32add (fv.counts 6) (fv.counts 8) = fv.counts 6 + fv.counts 8 :=
      u32add_eq_of_lt _ _ hA
    refine ⟨?_, ?_, ?_⟩
    · rw [hfc, hcan, hmod, hoth, hw]; omega
    · rw [hfrac, hmod, hfc, hw, mkRat_natCast_div,
        Nat.add_comm (fv.counts 8) (fv.counts 6)]
    · rw [hfc]; exact Nat.pos_iff_ne_zero.mp hg
  · obtain ⟨_, hfc, hcan, _, hmods, hfrac⟩ :=
      mem_add_pileup_counts _ _ _ _ _ _ _ _ _ _ _ _ hmem
    have hw1 : u32add (fv.counts 7) (fv.counts 9) = fv.counts 7 + fv.counts 9 :=
      u32add_eq_of_lt _ _ (by omega)
    have hw2 : u32add (u32add (fv.counts 7) (fv.counts 9)) (fv.counts 10)
        = fv.counts 7 + fv.counts 9 + fv.counts 10 := by
      rw [hw1]; exact u32add_eq_of_lt _ _ hC
    have hw3 : u32add (fv.counts 9) (fv.counts 10) = fv.counts 9 + fv.counts 10 :=
      u32add_eq_of_lt _ _ (by omega)
    refine ⟨?_, ?_, ?_⟩
    · rcases hmods with ⟨hm, ho⟩ | ⟨hm, ho⟩ | ⟨hm, ho⟩ <;>
        rw [hfc, hcan, hm, ho, hw2] <;> try rw [hw3]
      all_goals omega
    · rw [hfrac, hfc, mkRat_natCast_div]
    · rw [hfc]; exact Nat.pos_iff_ne_zero.mp hg
  · have hw : u32add (fv.counts 17) (fv.counts 19) = fv.counts 17 + fv.counts 19 :=
      u32add_eq_of_lt _ _ hA2
    refine ⟨?_, ?_, ?_⟩
    · rw [hfc, hcan, hmod, hoth, hw]; omega
    · rw [hfrac, hmod, hfc, hw, mkRat_natCast_div,
        Nat.add_comm (fv.counts 19) (fv.counts 17)]
    · rw [hfc]; exact Nat.pos_iff_ne_zero.mp hg
  · obtain ⟨_, hfc, hcan, _, hmods, hfrac⟩ :=
      mem_add_pileup_counts _ _ _ _ _ _ _ _ _ _ _ _ hmem
    have hw1 : u32add (fv.counts 18) (fv.counts 20) = fv.counts 18 + fv.counts 20 :=
      u32add_eq_of_lt _ _ (by omega)
    have hw2 : u32add (u32add (fv.counts 18) (fv.counts 20)) (fv.counts 21)
        = fv.counts 18 + fv.counts 20 + fv.counts 21 := by
      rw [hw1]; exact u32add_eq_of_lt _ _ hC2
    have hw3 : u32add (fv.counts 20) (fv.counts 21) = fv.counts 20 + fv.counts 21 :=
      u32add_eq_of_lt _ _ (by omega)
    refine ⟨?_, ?_, ?_⟩
    · rcases hmods with ⟨hm, ho⟩ | ⟨hm, ho⟩ | ⟨hm, ho⟩ <;>
        rw [hfc, hcan, hm, ho, hw2] <;> try rw [hw3]
      all_goals omega
    · rw [hfrac, hfc, mkRat_natCast_div]
    · rw [hfc]; exact Nat.pos_iff_ne_zero.mp hg

/-- A counter state whose positive-strand cytosine family total exceeds
`u32::MAX`, for the C2 counterexample. -/
def c2_overflow_fv : FeatureVector :=
  ⟨fun i => if i = (7 : Fin 22) then 2 ^ 31
    else if i = (9 : Fin 22) then 2 ^ 31
    else if i = (10 : Fin 22) then 5 else 0⟩

/-- The wrapped `m` row that `c2_overflow_fv` decodes to. -/
def c2_wrapped_row : PileupFeatureCounts :=
  { strand := .Positive
    filtered_coverage := 5
    raw_mod_code := 'm'
    fraction_modified := 1
    n_canonical := 2 ^ 31
    n_modified := 5
    n_other_modified := 2 ^ 31
    n_delete := 0
    n_filtered := 0
    n_diff := 0
    n_nocall := 0 }

/-- C2 (counterexample): on the FeatureVector with `n_C = n_h = 2^31` and
`n_m = 5` on the positive strand, `decode` emits an `m` row whose
`filtered_coverage` is the `u32`-wrapped sum 5, not the family sum
`n_canonical + n_h + n_m = 2^32 + 5` — refuting the claim for every
FeatureVector. -/
theorem c2_filtered_coverage_wraps :
    c2_overflow_fv.decode [ModCode.m] .Passthrough = [c2_wrapped_row]
    ∧ c2_wrapped_row.filtered_coverage
        ≠ c2_wrapped_row.n_canonical + c2_wrapped_row.n_modified
            + c2_wrapped_row.n_other_modified := by
  decide

/-- A small in-range counter state for the C2 witness. -/
def c2_small_fv : FeatureVector :=
  ⟨fun i => if i = (6 : Fin 22) then 1 else if i = (8 : Fin 22) then 1 else 0⟩

/-- The 'a' row that `c2_small_fv` decodes to. -/
def c2_small_row : PileupFeatureCounts :=
  { strand := .Positive
    filtered_coverage := 2
    raw_mod_code := 'a'
    fraction_modified := mkRat 1 2
    n_canonical := 1
    n_modified := 1
    n_other_modified := 0
    n_delete := 0
    n_filtered := 0
    n_diff := 0
    n_nocall := 0 }

/-- C2 witness: the amended invariants hold for the concrete row decoded from
`c2_small_fv` (all four no-wrap hypotheses and the membership discharged by
`decide`). -/
theorem c2_decode_row_invariants_witness :
    c2_small_row.filtered_coverage
        = c2_small_row.n_canonical + c2_small_row.n_modified
            + c2_small_row.n_other_modified
    ∧ c2_small_row.fraction_modified
        = (c2_small_row.n_modified : ℚ) / (c2_small_row.filtered_coverage : ℚ)
    ∧ c2_small_row.filtered_coverage ≠ 0 :=
  c2_decode_row_invariants c2_small_fv [ModCode.a] .Passthrough
    (by decide) (by decide) (by decide) (by decide) c2_small_row (by decide)
